import Mathlib

/-!
Verification of the go-kv-store repository: a shallow embedding of the
in-memory key-value store (`kvstore` package), the pub/sub manager, the
metrics collector and the command dispatcher (`server` package), together
with theorems settling the specification claims.

Modelling conventions:
* Go `map[string]V` is modelled as an association list `List (String × V)`;
  `m[k]` is `mget`, `m[k] = v` is `mset`, `delete(m, k)` is `mdel`.
  A Go map is observationally its lookup function (iteration order is
  unspecified), so map-equality statements are phrased via `mget`.
* `time.Time` and `time.Duration` are modelled as `Int` nanoseconds;
  `t1.After(t2)` is `t1 > t2`.  Each store operation takes the instant
  `now` at which `time.Now()` is read.
* Go's `int(float64Seconds)` conversion truncates toward zero; on whole
  nanosecond counts this is exactly `Int.tdiv _ nsPerSecond`.
* Fallible operations return their result paired with the post state.
-/

/-- Lookup in a Go map modelled as an association list (`m[k]`). -/
def mget {α : Type} : List (String × α) → String → Option α
  | [], _ => none
  | (k, v) :: rest, key => if key = k then some v else mget rest key

/-- Go map assignment `m[key] = v`: replace the binding if present, else add it. -/
def mset {α : Type} : List (String × α) → String → α → List (String × α)
  | [], key, v => [(key, v)]
  | (k, w) :: rest, key, v =>
    if key = k then (k, v) :: rest else (k, w) :: mset rest key v

/-- Go map deletion `delete(m, key)`. -/
def mdel {α : Type} : List (String × α) → String → List (String × α)
  | [], _ => []
  | (k, w) :: rest, key =>
    if key = k then mdel rest key else (k, w) :: mdel rest key

theorem mget_mset {α : Type} (l : List (String × α)) (key x : String) (v : α) :
    mget (mset l key v) x = if x = key then some v else mget l x := by
  induction l with
  | nil => simp [mset, mget]
  | cons a rest ih =>
    obtain ⟨k, w⟩ := a
    by_cases hk : key = k
    · subst hk
      simp only [mset, if_pos rfl, mget]
      by_cases hx : x = key <;> simp [hx]
    · simp only [mset, if_neg hk, mget]
      by_cases hx : x = k
      · subst hx
        have hxk : ¬ x = key := fun h => hk h.symm
        simp [hxk]
      · simp [hx, ih]

theorem mget_mdel {α : Type} (l : List (String × α)) (key x : String) :
    mget (mdel l key) x = if x = key then none else mget l x := by
  induction l with
  | nil => simp [mdel, mget]
  | cons a rest ih =>
    obtain ⟨k, w⟩ := a
    by_cases hk : key = k
    · subst hk
      simp only [mdel, if_pos rfl, mget]
      by_cases hx : x = key <;> simp [hx] at ih ⊢ <;> exact ih
    · simp only [mdel, if_neg hk, mget]
      by_cases hx : x = k
      · subst hx
        have hxk : ¬ x = key := fun h => hk h.symm
        simp [hxk]
      · simp [hx, ih]

/-- Lookup after filtering by a predicate that depends only on the key. -/
theorem mget_filterKey {α : Type} (q : String → Bool) (l : List (String × α)) (x : String) :
    mget (l.filter (fun kv => q kv.1)) x = if q x then mget l x else none := by
  induction l with
  | nil => simp [mget]
  | cons a rest ih =>
    obtain ⟨k, w⟩ := a
    by_cases hq : q k
    · by_cases hx : x = k
      · subst hx; simp [List.filter, hq, mget, ih]
      · simp [List.filter, hq, mget, hx, ih]
    · by_cases hx : x = k
      · subst hx; simp [List.filter, hq, mget, ih]
      · simp [List.filter, hq, mget, hx, ih]

/-- Nanoseconds per second: `time.Second` as an integer nanosecond count. -/
def nsPerSecond : Int := 1000000000

/-- `kvstore.KVStore`: the value map `data` and the expiration map
`expirations` (absolute expiration instants in nanoseconds). -/
structure KVStore where
  data : List (String × String)
  expirations : List (String × Int)
deriving DecidableEq, Repr

/-- `kvstore.New`: empty store. -/
def KVStore.New : KVStore := { data := [], expirations := [] }

/-- `KVStore.expired` helper: the key has an expiration entry and
`time.Now().After(expiration)` (strictly after). -/
def KVStore.expired (s : KVStore) (now : Int) (key : String) : Bool :=
  match mget s.expirations key with
  | some expiration => now > expiration
  | none => false

/-- `KVStore.Set`: upsert the value; delete the expiration entry if present. -/
def KVStore.Set (s : KVStore) (key value : String) : KVStore :=
  let data := mset s.data key value
  match mget s.expirations key with
  | some _ => { data := data, expirations := mdel s.expirations key }
  | none => { data := data, expirations := s.expirations }

/-- `KVStore.Get`: returns the value unless the key is absent, or lazily
deletes the entry from both maps and reports not-found when it is expired.
`none` models the `KeyNotFound` error. -/
def KVStore.Get (s : KVStore) (now : Int) (key : String) : Option String × KVStore :=
  match mget s.data key with
  | none => (none, s)
  | some value =>
    if s.expired now key then
      (none, { data := mdel s.data key, expirations := mdel s.expirations key })
    else
      (some value, s)

/-- `KVStore.Contains`: presence in the value map only. -/
def KVStore.Contains (s : KVStore) (key : String) : Bool :=
  (mget s.data key).isSome

/-- `KVStore.SetEx`: upsert the value and record
`time.Now().Add(time.Duration(ttl) * time.Second)` as the expiration. -/
def KVStore.SetEx (s : KVStore) (now : Int) (key value : String) (ttl : Int) : KVStore :=
  { data := mset s.data key value,
    expirations := mset s.expirations key (now + ttl * nsPerSecond) }

/-- `KVStore.TTL`: -2 when absent, -1 when no expiration, otherwise
`int(time.Until(ttl).Seconds())` (truncation toward zero), mapped to -2
when negative. -/
def KVStore.TTL (s : KVStore) (now : Int) (key : String) : Int :=
  match mget s.data key with
  | none => -2
  | some _ =>
    match mget s.expirations key with
    | none => -1
    | some ttl =>
      let secondsRemaining := Int.tdiv (ttl - now) nsPerSecond
      if secondsRemaining < 0 then -2 else secondsRemaining

/-- `KVStore.Persist`: drop the expiration keeping the value; returns 1
exactly when the key exists and an expiration entry existed. -/
def KVStore.Persist (s : KVStore) (key : String) : Int × KVStore :=
  match mget s.data key with
  | none => (0, s)
  | some _ =>
    match mget s.expirations key with
    | none => (0, s)
    | some _ => (1, { s with expirations := mdel s.expirations key })

/-- `KVStore.Rename`: move the value from `oldKey` to `newKey` and, when
`oldKey` has an expiration entry, move that too. -/
def KVStore.Rename (s : KVStore) (oldKey newKey : String) : Int × KVStore :=
  match mget s.data oldKey with
  | none => (0, s)
  | some value =>
    let data := mset (mdel s.data oldKey) newKey value
    match mget s.expirations oldKey with
    | some expiration =>
      (1, { data := data,
            expirations := mset (mdel s.expirations oldKey) newKey expiration })
    | none => (1, { data := data, expirations := s.expirations })

/-- `KVStore.RenameNX`: like `Rename` but fails when `newKey` already holds a value. -/
def KVStore.RenameNX (s : KVStore) (oldKey newKey : String) : Int × KVStore :=
  match mget s.data oldKey with
  | none => (0, s)
  | some value =>
    match mget s.data newKey with
    | some _ => (0, s)
    | none =>
      let data := mset (mdel s.data oldKey) newKey value
      match mget s.expirations oldKey with
      | some expiration =>
        (1, { data := data,
              expirations := mset (mdel s.expirations oldKey) newKey expiration })
      | none => (1, { data := data, expirations := s.expirations })

/-- `KVStore.Delete`: remove the key from both maps; `false` models the
`KeyNotFound` error return. -/
def KVStore.Delete (s : KVStore) (key : String) : Bool × KVStore :=
  match mget s.data key with
  | none => (false, s)
  | some _ => (true, { data := mdel s.data key, expirations := mdel s.expirations key })

/-- `KVStore.Flush`: replace both maps with fresh empty ones. -/
def KVStore.Flush (_ : KVStore) : KVStore :=
  { data := [], expirations := [] }

/-- `KVStore.cleanUp`: remove every expired key (found by ranging over
`data`) from both maps. -/
def KVStore.cleanUp (s : KVStore) (now : Int) : KVStore :=
  { data := s.data.filter (fun kv => !(s.expired now kv.1)),
    expirations :=
      s.expirations.filter (fun kv => !((mget s.data kv.1).isSome && s.expired now kv.1)) }

/-- `KVStore.Keys`: run a cleanup sweep, then list the remaining keys. -/
def KVStore.Keys (s : KVStore) (now : Int) : List String × KVStore :=
  let s' := s.cleanUp now
  (s'.data.map (fun kv => kv.1), s')

/-- `server.PubSubManager`: channel name → set of subscriber connections.
Connections (`net.Conn`) are opaque handles, modelled as `Nat`; the Go
`map[net.Conn]bool` membership set is modelled as the list of members. -/
structure PubSubManager where
  Subscribtions : List (String × List Nat)
deriving DecidableEq, Repr

/-- `PubSubManager.Publish` as written in the source: look up the channel
(the no-subscriber branch is a bare `return`, i.e. the zero value 0), then
iterate over the subscribers doing a best-effort `fmt.Fprintf` to each
(`writeOk conn` says whether that write succeeds), incrementing `count`
under the source's test `err != 0` — that is, exactly when the write to
that connection FAILS. -/
def PubSubManager.Publish (m : PubSubManager) (writeOk : Nat → Bool)
    (channel : String) (_message : String) : Nat :=
  match mget m.Subscribtions channel with
  | none => 0
  | some connections =>
    connections.foldl (fun count conn => if writeOk conn then count else count + 1) 0

/-- One ASCII character of `strings.ToUpper`. -/
def asciiUpper (c : Char) : Char :=
  if 'a' ≤ c && c ≤ 'z' then Char.ofNat (c.toNat - 32) else c

/-- `strings.ToUpper` (ASCII fragment; every command name is ASCII). -/
def upperStr (s : String) : String := ⟨s.data.map asciiUpper⟩

/-- `server.Metrics` (map-based version used by the dispatcher). -/
structure Metrics where
  ActiveClients : Int
  CommandCounts : List (String × Nat)
deriving DecidableEq, Repr

/-- `server.NewMetrics`. -/
def NewMetrics : Metrics := { ActiveClients := 0, CommandCounts := [] }

/-- `Metrics.Inc`: upper-case the command name, then create-or-increment
its counter. -/
def Metrics.Inc (m : Metrics) (command : String) : Metrics :=
  let key := upperStr command
  match mget m.CommandCounts key with
  | none => { m with CommandCounts := mset m.CommandCounts key 1 }
  | some n => { m with CommandCounts := mset m.CommandCounts key (n + 1) }

/-- `Metrics.Get`: a command's count, 0 when never incremented. -/
def Metrics.Get (m : Metrics) (command : String) : Nat :=
  match mget m.CommandCounts (upperStr command) with
  | none => 0
  | some count => count

/-- `Metrics.TotalCommands`: sum of all counters except `"ERROR"`. -/
def Metrics.TotalCommands (m : Metrics) : Nat :=
  m.CommandCounts.foldl (fun total kc => if kc.1 = "ERROR" then total else total + kc.2) 0

/-- `Metrics.Snapshot` (a value copy; our model is already a value). -/
def Metrics.Snapshot (m : Metrics) : Metrics := m

/-- `strconv.Atoi` digit accumulator; fails on any non-digit. -/
def digitsToNat : List Char → Nat → Option Nat
  | [], acc => some acc
  | c :: cs, acc =>
    if c.isDigit then digitsToNat cs (acc * 10 + (c.toNat - 48)) else none

/-- `strconv.Atoi`: optional sign then one or more digits (64-bit overflow
is not modelled; no claim depends on it). -/
def Atoi (s : String) : Option Int :=
  match s.data with
  | [] => none
  | '+' :: cs => if cs = [] then none else (digitsToNat cs 0).map (fun n => (n : Int))
  | '-' :: cs => if cs = [] then none else (digitsToNat cs 0).map (fun n => -(n : Int))
  | cs => (digitsToNat cs 0).map (fun n => (n : Int))

/-- Go `time.Duration.String` restricted to whole-second durations (the
shape produced by `uptime.Truncate(time.Second)` in `handleInfo`). -/
def durationSecString (n : Nat) : String :=
  if n < 60 then toString n ++ "s"
  else if n < 3600 then toString (n / 60) ++ "m" ++ toString (n % 60) ++ "s"
  else toString (n / 3600) ++ "h" ++ toString ((n % 3600) / 60) ++ "m" ++
    toString (n % 60) ++ "s"

/-- Signed wrapper for `durationSecString`. -/
def durationString (secs : Int) : String :=
  if secs < 0 then "-" ++ durationSecString (-secs).toNat
  else durationSecString secs.toNat

/-- `strings.TrimRight(s, "\n")`. -/
def trimRightNewlines (s : String) : String :=
  ⟨(s.data.reverse.dropWhile (fun c => c = '\n')).reverse⟩

/-- `kvstore.KeyNotFound`. -/
def KeyNotFound : String := "ERROR: Key not found"

def OK : String := "OK"

def GetCommand : String := "GET"

def MGetCommand : String := "MGET"

def KeyExistsCommand : String := "KEYEXISTS"

def TypeCommand : String := "TYPE"

def SetCommand : String := "SET"

def MSetCommand : String := "MSET"

def SetexCommand : String := "SETEX"

def TTLCommand : String := "TTL"

def RenameCommand : String := "RENAME"

def StatsCommand : String := "STATS"

def DeleteCommand : String := "DELETE"

def DelCommand : String := "DEL"

def DeleteexCommand : String := "DELETEEX"

def FlushCommand : String := "FLUSH"

def SaveCommand : String := "SAVE"

def LoadCommand : String := "LOAD"

def KeysCommand : String := "KEYS"

def InfoCommand : String := "INFO"

def HelpCommand : String := "HELP"

def PingCommand : String := "PING"

def ShutDownCommand : String := "SHUTDOWN"

def InvalidCommand : String := "ERROR: Invalid command."

def ServerVersion : String := "1.0.0"

/-- A single-quote string, used by `formatInvalidTTL`. -/
def squote : String := String.singleton '\''

/-- `server.formatInvalidCommand`. -/
def formatInvalidCommand (cmd expected : String) : String :=
  "ERROR: Invalid " ++ cmd ++ " command. Expected format: " ++ expected

/-- `server.formatInvalidTTL`. -/
def formatInvalidTTL (ttlStr : String) : String :=
  "ERROR: Invalid TTL value " ++ squote ++ ttlStr ++ squote ++
    ". TTL must be a positive integer."

/-- External inputs of one dispatch step: the instant `time.Now()` reads,
the server start instant, the outcomes of the disk save/load this step
would perform, and the store contents a successful `LOAD` installs. -/
structure Env where
  now : Int
  startTime : Int
  saveErr : Option String
  loadErr : Option String
  loadedStore : KVStore

/-- The dispatcher's shared mutable state: the global `kv` store and the
global `metrics`. -/
structure DState where
  kv : KVStore
  metrics : Metrics
deriving DecidableEq, Repr

/-- `server.handleGet`. -/
def handleGet (env : Env) (st : DState) (tokens : List String) : String × DState :=
  if tokens.length ≠ 2 then
    (formatInvalidCommand "GET" "GET <key>", { st with metrics := st.metrics.Inc "ERROR" })
  else
    let key := tokens.getD 1 ""
    match st.kv.Get env.now key with
    | (none, kv') => (KeyNotFound, { kv := kv', metrics := st.metrics.Inc "ERROR" })
    | (some value, kv') => (value, { kv := kv', metrics := st.metrics.Inc "GET" })

/-- The `MGET` read loop: one `kv.Get` per key (each with its lazy-expiry
side effect), appending the value or `nil` plus a newline. -/
def mgetLoop (env : Env) (kv : KVStore) : List String → String × KVStore
  | [] => ("", kv)
  | key :: rest =>
    match kv.Get env.now key with
    | (none, kv') =>
      let (sb, kv'') := mgetLoop env kv' rest
      ("nil\n" ++ sb, kv'')
    | (some value, kv') =>
      let (sb, kv'') := mgetLoop env kv' rest
      (value ++ "\n" ++ sb, kv'')

/-- `server.handleMGet`. -/
def handleMGet (env : Env) (st : DState) (tokens : List String) : String × DState :=
  if tokens.length < 2 then
    (formatInvalidCommand "MGET" "MGET <key1> <key2> ...",
     { st with metrics := st.metrics.Inc "ERROR" })
  else
    let (sb, kv') := mgetLoop env st.kv (tokens.drop 1)
    (trimRightNewlines sb, { kv := kv', metrics := st.metrics.Inc "MGET" })

/-- `server.handleKeyExists` (counter incremented before the branch). -/
def handleKeyExists (st : DState) (tokens : List String) : String × DState :=
  if tokens.length ≠ 2 then
    (formatInvalidCommand "KEYEXISTS" "KEYEXISTS <key>",
     { st with metrics := st.metrics.Inc "ERROR" })
  else
    let key := tokens.getD 1 ""
    let keyExists := st.kv.Contains key
    let st' := { st with metrics := st.metrics.Inc "KEYEXISTS" }
    if keyExists then ("1", st') else ("0", st')

/-- `server.handleType`, exactly as in the source: the present-key path
returns `"string"` before reaching `metrics.Inc("TYPE")`, so only the
`"none"` path increments the counter. -/
def handleType (st : DState) (tokens : List String) : String × DState :=
  if tokens.length ≠ 2 then
    (formatInvalidCommand "TYPE" "TYPE <key>",
     { st with metrics := st.metrics.Inc "ERROR" })
  else
    let key := tokens.getD 1 ""
    if st.kv.Contains key then ("string", st)
    else ("none", { st with metrics := st.metrics.Inc "TYPE" })

/-- `server.handleSet`. -/
def handleSet (st : DState) (tokens : List String) : String × DState :=
  if tokens.length ≠ 3 then
    (formatInvalidCommand "SET" "SET <key> <value>",
     { st with metrics := st.metrics.Inc "ERROR" })
  else
    let key := tokens.getD 1 ""
    let value := tokens.getD 2 ""
    (OK, { kv := st.kv.Set key value, metrics := st.metrics.Inc "SET" })

/-- The `MSET` write loop over consecutive key/value pairs. -/
def msetLoop (kv : KVStore) : List String → KVStore
  | key :: value :: rest => msetLoop (kv.Set key value) rest
  | _ => kv

/-- `server.handleMSet`. -/
def handleMSet (st : DState) (tokens : List String) : String × DState :=
  if tokens.length < 3 ∨ tokens.length % 2 ≠ 1 then
    (formatInvalidCommand "MSET" "MSET <key1> <val1> <key2> <val2> ...",
     { st with metrics := st.metrics.Inc "ERROR" })
  else
    (OK, { kv := msetLoop st.kv (tokens.drop 1), metrics := st.metrics.Inc "MSET" })

/-- `server.handleSetEx`. -/
def handleSetEx (env : Env) (st : DState) (tokens : List String) : String × DState :=
  if tokens.length ≠ 4 then
    (formatInvalidCommand "SETEX" "SETEX <key> <value> <ttl_seconds>",
     { st with metrics := st.metrics.Inc "ERROR" })
  else
    let key := tokens.getD 1 ""
    let value := tokens.getD 2 ""
    let ttlStr := tokens.getD 3 ""
    match Atoi ttlStr with
    | none => (formatInvalidTTL ttlStr, { st with metrics := st.metrics.Inc "ERROR" })
    | some ttl =>
      if ttl ≤ 0 then (formatInvalidTTL ttlStr, { st with metrics := st.metrics.Inc "ERROR" })
      else (OK, { kv := st.kv.SetEx env.now key value ttl, metrics := st.metrics.Inc "SETEX" })

/-- `server.handleTTL`. -/
def handleTTL (env : Env) (st : DState) (tokens : List String) : String × DState :=
  if tokens.length ≠ 2 then
    (formatInvalidCommand "TTL" "TTL <key>", { st with metrics := st.metrics.Inc "ERROR" })
  else
    let key := tokens.getD 1 ""
    let ttl := st.kv.TTL env.now key
    (toString ttl, { st with metrics := st.metrics.Inc "TTL" })

/-- `server.handleRename` (checks `Contains` first, ignores `Rename`'s result). -/
def handleRename (st : DState) (tokens : List String) : String × DState :=
  if tokens.length ≠ 3 then
    (formatInvalidCommand "RENAME" "RENAME <oldKey> <newKey>",
     { st with metrics := st.metrics.Inc "ERROR" })
  else
    let oldKey := tokens.getD 1 ""
    let newKey := tokens.getD 2 ""
    if !(st.kv.Contains oldKey) then
      (KeyNotFound, { st with metrics := st.metrics.Inc "ERROR" })
    else
      ((OK : String), { kv := (st.kv.Rename oldKey newKey).2,
                        metrics := st.metrics.Inc "RENAME" })

/-- `server.statsString`: active-client line plus one line per tracked command. -/
def statsString (metrics : Metrics) : String :=
  let snapshot := metrics.Snapshot
  let tracked := ["SET", "GET", "SETEX", "DELETE", "DELETEEX", "KEYEXISTS", "FLUSH",
    "SAVE", "LOAD", "KEYS", "PING", "INFO", "HELP", "ERROR"]
  "Active clients: " ++ toString snapshot.ActiveClients ++ "\n" ++
    String.join (tracked.map (fun cmd => cmd ++ ": " ++ toString (snapshot.Get cmd) ++ "\n"))

/-- `server.handleStats`: note the success path returns `statsString`
without incrementing any counter. -/
def handleStats (st : DState) (tokens : List String) : String × DState :=
  if tokens.length ≠ 1 then
    (formatInvalidCommand "STATS" "STATS", { st with metrics := st.metrics.Inc "ERROR" })
  else
    (statsString st.metrics, st)

/-- `server.handleDelete`. -/
def handleDelete (st : DState) (tokens : List String) : String × DState :=
  if tokens.length ≠ 2 then
    (formatInvalidCommand "DELETE" "DELETE <key>",
     { st with metrics := st.metrics.Inc "ERROR" })
  else
    let key := tokens.getD 1 ""
    match st.kv.Delete key with
    | (false, kv') => (KeyNotFound, { kv := kv', metrics := st.metrics.Inc "ERROR" })
    | (true, kv') => (OK, { kv := kv', metrics := st.metrics.Inc "DELETE" })

/-- The `DEL` loop: best-effort delete of each key, counting successes. -/
def delLoop (kv : KVStore) : List String → Nat × KVStore
  | [] => (0, kv)
  | key :: rest =>
    match kv.Delete key with
    | (ok, kv') =>
      let (count, kv'') := delLoop kv' rest
      (if ok then count + 1 else count, kv'')

/-- `server.handleDel`. -/
def handleDel (st : DState) (tokens : List String) : String × DState :=
  if tokens.length < 2 then
    (formatInvalidCommand "DEL" "DEL <key1> <key2> ...",
     { st with metrics := st.metrics.Inc "ERROR" })
  else
    let (count, kv') := delLoop st.kv (tokens.drop 1)
    (toString count, { kv := kv', metrics := st.metrics.Inc "DEL" })

/-- `server.handleDeleteEx`: validates the key via `kv.Get` (with its lazy
expiry side effect), parses the delay, acknowledges immediately.  The
deferred `kv.Delete` fired later by `time.AfterFunc` is outside this
dispatch step. -/
def handleDeleteEx (env : Env) (st : DState) (tokens : List String) : String × DState :=
  if tokens.length ≠ 3 then
    (formatInvalidCommand "DELETEEX" "DELETEEX <key> <ttl_seconds>",
     { st with metrics := st.metrics.Inc "ERROR" })
  else
    let key := tokens.getD 1 ""
    let delayStr := tokens.getD 2 ""
    match st.kv.Get env.now key with
    | (none, kv') => (KeyNotFound, { kv := kv', metrics := st.metrics.Inc "ERROR" })
    | (some _, kv') =>
      match Atoi delayStr with
      | none => (formatInvalidTTL delayStr, { kv := kv', metrics := st.metrics.Inc "ERROR" })
      | some delay =>
        if delay ≤ 0 then
          (formatInvalidTTL delayStr, { kv := kv', metrics := st.metrics.Inc "ERROR" })
        else
          (OK, { kv := kv', metrics := st.metrics.Inc "DELETEEX" })

/-- `server.handleFlush`. -/
def handleFlush (st : DState) (tokens : List String) : String × DState :=
  if tokens.length ≠ 1 then
    (formatInvalidCommand "FLUSH" "FLUSH", { st with metrics := st.metrics.Inc "ERROR" })
  else
    (OK, { kv := st.kv.Flush, metrics := st.metrics.Inc "FLUSH" })

/-- `server.handleSave`. -/
def handleSave (env : Env) (st : DState) (tokens : List String) : String × DState :=
  if tokens.length ≠ 1 then
    (formatInvalidCommand "SAVE" "SAVE", { st with metrics := st.metrics.Inc "ERROR" })
  else
    match env.saveErr with
    | some e =>
      ("ERROR: Failed to save to disk: " ++ e, { st with metrics := st.metrics.Inc "ERROR" })
    | none => (OK, { st with metrics := st.metrics.Inc "SAVE" })

/-- `server.handleLoad`. -/
def handleLoad (env : Env) (st : DState) (tokens : List String) : String × DState :=
  if tokens.length ≠ 1 then
    (formatInvalidCommand "LOAD" "LOAD", { st with metrics := st.metrics.Inc "ERROR" })
  else
    match env.loadErr with
    | some e =>
      ("ERROR: Failed to load data from disk: " ++ e,
       { st with metrics := st.metrics.Inc "ERROR" })
    | none => (OK, { kv := env.loadedStore, metrics := st.metrics.Inc "LOAD" })

/-- `server.handleKeys`. -/
def handleKeys (env : Env) (st : DState) (tokens : List String) : String × DState :=
  if tokens.length ≠ 1 then
    (formatInvalidCommand "KEYS" "KEYS", { st with metrics := st.metrics.Inc "ERROR" })
  else
    let (keys, kv') := st.kv.Keys env.now
    let st' := { kv := kv', metrics := st.metrics.Inc "KEYS" }
    if keys.length = 0 then ("EMPTY", st')
    else (String.intercalate "\n" keys, st')

/-- `server.handleInfo`: note `len(kv.Keys())` runs a cleanup sweep. -/
def handleInfo (env : Env) (st : DState) (tokens : List String) : String × DState :=
  if tokens.length ≠ 1 then
    (formatInvalidCommand "INFO" "INFO", { st with metrics := st.metrics.Inc "ERROR" })
  else
    let uptimeSecs := Int.tdiv (env.now - env.startTime) nsPerSecond
    let activeClients := st.metrics.ActiveClients
    let commandsProcessed := st.metrics.TotalCommands
    let (keys, kv') := st.kv.Keys env.now
    let info := "Server Version: " ++ ServerVersion ++ "\n" ++
      "Uptime: " ++ durationString uptimeSecs ++ "\n" ++
      "Active Clients: " ++ toString activeClients ++ "\n" ++
      "Total Commands Processed: " ++ toString commandsProcessed ++ "\n" ++
      "Keys in Store: " ++ toString keys.length ++ "\n"
    (info, { kv := kv', metrics := st.metrics.Inc "INFO" })

/-- `server.handleHelp` (the arity error reuses the `INFO` format text, as
in the source). -/
def handleHelp (st : DState) (tokens : List String) : String × DState :=
  if tokens.length ≠ 1 then
    (formatInvalidCommand "INFO" "INFO", { st with metrics := st.metrics.Inc "ERROR" })
  else
    ("Available commands:\n\tSET <key> <value>          - Store a key-value pair\n\tGET <key>                  - Retrieve a value\n\tSETEX <key> <value> <ttl>  - Store a key-value pair with expiration\n\tDELETE <key>               - Remove a key\n\tDELETEEX <key> <ttl>       - Remove a key after a delay\n\tKEYEXISTS <key>            - Check if a key exists\n\tFLUSH                      - Clear all keys\n\tKEYS                       - List all keys\n\tSTATS                      - Show usage metrics\n\tINFO                       - Show server config\n\tPING                       - Check if server is alive\n\tSAVE                       - Save store to disk\n\tLOAD                       - Load store from disk\n\tSHUTDOWN                   - Gracefully stop the server\n\tHELP                       - Show this help message",
     { st with metrics := st.metrics.Inc "HELP" })

/-- `server.handlePing`. -/
def handlePing (st : DState) (tokens : List String) : String × DState :=
  if tokens.length ≠ 1 then
    (formatInvalidCommand "PING" "PING", { st with metrics := st.metrics.Inc "ERROR" })
  else
    ("PONG", { st with metrics := st.metrics.Inc "PING" })

/-- `server.handleShutDown`: the success path triggers a SIGINT in a fresh
goroutine (outside this dispatch step) and returns without touching any
counter. -/
def handleShutDown (st : DState) (tokens : List String) : String × DState :=
  if tokens.length ≠ 1 then
    (formatInvalidCommand "SHUTDOWN" "SHUTDOWN",
     { st with metrics := st.metrics.Inc "ERROR" })
  else
    ("Server shutting down...", st)

/-- `server.processCommand`: upper-case token 0 and route through the
command switch. -/
def processCommand (env : Env) (st : DState) (tokens : List String) : String × DState :=
  match tokens with
  | [] => (InvalidCommand, { st with metrics := st.metrics.Inc "ERROR" })
  | t0 :: _ =>
    let cmd := upperStr t0
    if cmd = GetCommand then handleGet env st tokens
    else if cmd = MGetCommand then handleMGet env st tokens
    else if cmd = KeyExistsCommand then handleKeyExists st tokens
    else if cmd = TypeCommand then handleType st tokens
    else if cmd = SetCommand then handleSet st tokens
    else if cmd = MSetCommand then handleMSet st tokens
    else if cmd = SetexCommand then handleSetEx env st tokens
    else if cmd = TTLCommand then handleTTL env st tokens
    else if cmd = RenameCommand then handleRename st tokens
    else if cmd = StatsCommand then handleStats st tokens
    else if cmd = DeleteCommand then handleDelete st tokens
    else if cmd = DelCommand then handleDel st tokens
    else if cmd = DeleteexCommand then handleDeleteEx env st tokens
    else if cmd = FlushCommand then handleFlush st tokens
    else if cmd = SaveCommand then handleSave env st tokens
    else if cmd = LoadCommand then handleLoad env st tokens
    else if cmd = KeysCommand then handleKeys env st tokens
    else if cmd = InfoCommand then handleInfo env st tokens
    else if cmd = HelpCommand then handleHelp st tokens
    else if cmd = PingCommand then handlePing st tokens
    else if cmd = ShutDownCommand then handleShutDown st tokens
    else (InvalidCommand, { st with metrics := st.metrics.Inc "ERROR" })

/-- The store-state invariant: every key in the expiration mapping is also
in the value mapping. -/
def StoreInv (s : KVStore) : Prop :=
  ∀ k, (mget s.expirations k).isSome → (mget s.data k).isSome

/-- Concrete store: key "k" holds "v" with expiration instant 0. -/
def storeKExp0 : KVStore := { data := [("k", "v")], expirations := [("k", 0)] }

/-- Concrete store: key "k" holds "v" with expiration instant 10. -/
def storeKV10 : KVStore := { data := [("k", "v")], expirations := [("k", 10)] }

/-- Concrete store: "old" has no expiration, "new" holds "w" expiring at 100. -/
def storeRen : KVStore :=
  { data := [("old", "v"), ("new", "w")], expirations := [("new", 100)] }

/-- Concrete store: "old" holds "v" expiring at 7. -/
def storeRen2 : KVStore := { data := [("old", "v")], expirations := [("old", 7)] }

/-- Concrete pub/sub state: channel "ch" has the single subscriber 7. -/
def pubsubOne : PubSubManager := { Subscribtions := [("ch", [7])] }

/-- Concrete dispatch environment. -/
def dispatchEnv : Env :=
  { now := 0, startTime := 0, saveErr := none, loadErr := none, loadedStore := KVStore.New }

/-- Concrete dispatch state: the store holds "k" (no TTL), all counters zero. -/
def dispatchSt : DState :=
  { kv := { data := [("k", "v")], expirations := [] }, metrics := NewMetrics }

/-- C1 counterexample: key "k" is present and its expiration instant (0)
is AT now (0) — "at or before now" — so the claim demands `NotFound`, but
`Get` returns the stored value because Go's `After` check is strict. -/
theorem C1_counterexample :
    mget storeKExp0.expirations "k" = some 0 ∧ (0 : Int) ≤ 0 ∧
      ¬ (storeKExp0.Get 0 "k").1 = none ∧
      storeKExp0.Get 0 "k" = (some "v", storeKExp0) := by
  decide

/-- C1 (amended): `Get` returns the stored value when the key is present
in the value mapping and its expiration instant (if any) is at or after
now; it returns `NotFound` when the key is absent, or when the expiration
instant is strictly before now, in which case the entry is removed from
both the value mapping and the expiration mapping (other keys untouched). -/
theorem C1_get_amended (s : KVStore) (now : Int) (key : String) :
    (mget s.data key = none → s.Get now key = (none, s)) ∧
    (∀ v, mget s.data key = some v →
      (∀ e, mget s.expirations key = some e → now ≤ e) →
      s.Get now key = (some v, s)) ∧
    (∀ v e, mget s.data key = some v → mget s.expirations key = some e → e < now →
      (s.Get now key).1 = none ∧
      mget (s.Get now key).2.data key = none ∧
      mget (s.Get now key).2.expirations key = none ∧
      (∀ x, x ≠ key → mget (s.Get now key).2.data x = mget s.data x ∧
        mget (s.Get now key).2.expirations x = mget s.expirations x)) := by
  refine ⟨?_, ?_, ?_⟩
  · intro h
    simp [KVStore.Get, h]
  · intro v hv he
    have hexp : s.expired now key = false := by
      unfold KVStore.expired
      cases hE : mget s.expirations key with
      | none => rfl
      | some e =>
        have := he e hE
        simp only [decide_eq_false_iff_not]
        omega
    simp [KVStore.Get, hv, hexp]
  · intro v e hv hE hlt
    have hexp : s.expired now key = true := by
      unfold KVStore.expired
      rw [hE]
      simp only [decide_eq_true_eq]
      omega
    refine ⟨?_, ?_, ?_, ?_⟩
    · simp [KVStore.Get, hv, hexp]
    · simp [KVStore.Get, hv, hexp, mget_mdel]
    · simp [KVStore.Get, hv, hexp, mget_mdel]
    · intro x hx
      simp [KVStore.Get, hv, hexp, mget_mdel, hx]

/-- C1 witness: on a store where "k" expires at 10, reading at 5 returns
the value and leaves the store unchanged. -/
theorem C1_witness : storeKV10.Get 5 "k" = (some "v", storeKV10) :=
  (C1_get_amended storeKV10 5 "k").2.1 "v" (by decide)
    (fun e he => by simp [storeKV10, mget] at he; omega)

/-- C2 counterexample: key "k" has expiration instant 0, which is at or
before now = 10, so the claim demands `Contains` return false; the code
returns true because `Contains` consults only the value mapping. -/
theorem C2_counterexample :
    mget storeKExp0.expirations "k" = some 0 ∧ (0 : Int) ≤ 10 ∧
      storeKExp0.Contains "k" = true := by
  decide

/-- C2 (amended): `Contains` reports presence in the value mapping only
and ignores expirations entirely — an expired key still reads as present
until some other operation removes it. -/
theorem C2_contains_amended (s : KVStore) (key : String) :
    (s.Contains key = true ↔ ∃ v, mget s.data key = some v) ∧
    (∀ exps, KVStore.Contains { s with expirations := exps } key = s.Contains key) := by
  constructor
  · simp [KVStore.Contains, Option.isSome_iff_exists]
  · intro exps
    rfl

/-- C2 witness: `Contains` is true on the expired-key store. -/
theorem C2_witness : storeKExp0.Contains "k" = true :=
  (C2_contains_amended storeKExp0 "k").1.mpr ⟨"v", by decide⟩

/-- C3 counterexample: "old" carries no expiration while "new" already
expires at 100.  After `Rename old new` the code leaves "new"'s old
expiration entry in place, so "new" carries an expiration although "old"
carried none — refuting "new carries an expiration afterwards if and only
if old carried one before" (and the moved value is now subject to a stale
TTL rather than old's absence of one). -/
theorem C3_counterexample :
    mget storeRen.expirations "old" = none ∧
      (storeRen.Rename "old" "new").1 = 1 ∧
      mget (storeRen.Rename "old" "new").2.data "new" = some "v" ∧
      mget (storeRen.Rename "old" "new").2.expirations "new" = some 100 := by
  decide

/-- C3 (amended): when `oldKey` is present (and distinct from `newKey`),
`Rename` succeeds, moves the value (overwriting any prior value at
`newKey`), and moves the expiration instant when `oldKey` carries one
(hence equal remaining TTL); but when `oldKey` carries no expiration,
`newKey`'s prior expiration entry — if any — is left in place, so `newKey`
may carry a stale expiration afterwards.  Other keys are untouched. -/
theorem C3_rename_amended (s : KVStore) (oldKey newKey v : String)
    (hv : mget s.data oldKey = some v) (hne : oldKey ≠ newKey) :
    (s.Rename oldKey newKey).1 = 1 ∧
    mget (s.Rename oldKey newKey).2.data oldKey = none ∧
    mget (s.Rename oldKey newKey).2.data newKey = some v ∧
    mget (s.Rename oldKey newKey).2.expirations oldKey = none ∧
    mget (s.Rename oldKey newKey).2.expirations newKey =
      (match mget s.expirations oldKey with
       | some e => some e
       | none => mget s.expirations newKey) ∧
    (∀ x, x ≠ oldKey → x ≠ newKey →
      mget (s.Rename oldKey newKey).2.data x = mget s.data x ∧
      mget (s.Rename oldKey newKey).2.expirations x = mget s.expirations x) := by
  cases hE : mget s.expirations oldKey with
  | none =>
    refine ⟨?_, ?_, ?_, ?_, ?_, ?_⟩
    · simp [KVStore.Rename, hv, hE]
    · simp [KVStore.Rename, hv, hE, mget_mset, mget_mdel, hne]
    · simp [KVStore.Rename, hv, hE, mget_mset]
    · simp [KVStore.Rename, hv, hE]
    · simp [KVStore.Rename, hv, hE]
    · intro x hxo hxn
      simp [KVStore.Rename, hv, hE, mget_mset, mget_mdel, hxo, hxn]
  | some e =>
    refine ⟨?_, ?_, ?_, ?_, ?_, ?_⟩
    · simp [KVStore.Rename, hv, hE]
    · simp [KVStore.Rename, hv, hE, mget_mset, mget_mdel, hne]
    · simp [KVStore.Rename, hv, hE, mget_mset]
    · simp [KVStore.Rename, hv, hE, mget_mset, mget_mdel, hne]
    · simp [KVStore.Rename, hv, hE, mget_mset]
    · intro x hxo hxn
      simp [KVStore.Rename, hv, hE, mget_mset, mget_mdel, hxo, hxn]

/-- C3 witness: renaming "old" (value "v", expiring at 7) to "new" moves
the value and the expiration instant. -/
theorem C3_witness :
    (storeRen2.Rename "old" "new").1 = 1 ∧
      mget (storeRen2.Rename "old" "new").2.data "new" = some "v" ∧
      mget (storeRen2.Rename "old" "new").2.expirations "new" = some 7 := by
  have h := C3_rename_amended storeRen2 "old" "new" "v" (by decide) (by decide)
  exact ⟨h.1, h.2.2.1, by have h5 := h.2.2.2.2.1; simpa using h5⟩

/-- C4 counterexample: key "k" expired at instant 0 and now is half a
second later, so the claim ("-2 when the expiration instant has already
passed") demands -2; the code truncates the remaining -0.5 s toward zero
and returns 0. -/
theorem C4_counterexample :
    mget storeKExp0.expirations "k" = some 0 ∧ (0 : Int) < 500000000 ∧
      storeKExp0.TTL 500000000 "k" = 0 := by
  decide

/-- C4 (amended): `TTL` returns -2 when the key is absent; -1 when present
with no expiration; when present with expiration instant `e` it returns
the truncated number of whole seconds remaining: `(e - now) / nsPerSecond`
(≥ 0) when `e` has not passed, -2 when `e` is a full second or more in the
past, and 0 — not -2 — when `e` passed less than one second ago. -/
theorem C4_ttl_amended (s : KVStore) (now : Int) (key : String) :
    (mget s.data key = none → s.TTL now key = -2) ∧
    ((mget s.data key).isSome → mget s.expirations key = none → s.TTL now key = -1) ∧
    (∀ e, (mget s.data key).isSome → mget s.expirations key = some e →
      (now ≤ e → s.TTL now key = (e - now) / nsPerSecond) ∧
      (e ≤ now - nsPerSecond → s.TTL now key = -2) ∧
      (e < now → now - nsPerSecond < e → s.TTL now key = 0)) := by
  refine ⟨?_, ?_, ?_⟩
  · intro h
    simp [KVStore.TTL, h]
  · intro h1 h2
    rcases Option.isSome_iff_exists.mp h1 with ⟨v, hv⟩
    simp [KVStore.TTL, hv, h2]
  · intro e h1 hE
    rcases Option.isSome_iff_exists.mp h1 with ⟨v, hv⟩
    have hns : nsPerSecond = 1000000000 := rfl
    refine ⟨?_, ?_, ?_⟩
    · intro hle
      have hnn : (0 : Int) ≤ e - now := by omega
      have hq : Int.tdiv (e - now) nsPerSecond = (e - now) / nsPerSecond :=
        Int.tdiv_eq_ediv hnn (by norm_num [nsPerSecond])
      have hpos : (0 : Int) ≤ (e - now) / nsPerSecond :=
        Int.ediv_nonneg hnn (by norm_num [nsPerSecond])
      simp only [KVStore.TTL, hv, hE, hq]
      rw [if_neg (by omega)]
    · intro hpast
      have h1e9 : nsPerSecond ≤ now - e := by omega
      have hq1 : (1 : Int) ≤ (now - e) / nsPerSecond := by
        rw [Int.le_ediv_iff_mul_le (by norm_num [nsPerSecond])]
        omega
      have hqe : Int.tdiv (now - e) nsPerSecond = (now - e) / nsPerSecond :=
        Int.tdiv_eq_ediv (by omega) (by norm_num [nsPerSecond])
      have hneg : Int.tdiv (e - now) nsPerSecond < 0 := by
        have : e - now = -(now - e) := by ring
        rw [this, Int.neg_tdiv, hqe]
        omega
      simp only [KVStore.TTL, hv, hE]
      rw [if_pos hneg]
    · intro hlt hgt
      have hz : Int.tdiv (now - e) nsPerSecond = 0 :=
        Int.tdiv_eq_zero_of_lt (by omega) (by simp only [nsPerSecond] at hgt ⊢; omega)
      have hzz : Int.tdiv (e - now) nsPerSecond = 0 := by
        have : e - now = -(now - e) := by ring
        rw [this, Int.neg_tdiv, hz]
        rfl
      simp only [KVStore.TTL, hv, hE, hzz]
      rw [if_neg (by omega)]

/-- C4 witness: "k" expires at 10, read at 5: 5 ns remain, truncating to 0
whole seconds. -/
theorem C4_witness : storeKV10.TTL 5 "k" = 0 := by
  have h := ((C4_ttl_amended storeKV10 5 "k").2.2 10 (by decide) (by decide)).1 (by decide)
  rw [h]
  decide

/-- C5: evaluation of `Publish` at the failing input.  With zero
subscribers it returns 0 as claimed; but with one live subscriber whose
write SUCCEEDS it also returns 0, and with that write FAILING it returns
1: the source's `count++` sits under `err != 0`, so the function counts
failed writes, the inverse of the delivered count the spec requires. -/
theorem C5_publish_bug :
    PubSubManager.Publish { Subscribtions := [] } (fun _ => true) "ch" "hello" = 0 ∧
    mget pubsubOne.Subscribtions "ch" = some [7] ∧
    pubsubOne.Publish (fun _ => true) "ch" "hello" = 0 ∧
    pubsubOne.Publish (fun _ => false) "ch" "hello" = 1 := by
  decide


/-- Effect of `Set` on value lookups. -/
theorem Set_data_mget (s : KVStore) (key value x : String) :
    mget (s.Set key value).data x = if x = key then some value else mget s.data x := by
  unfold KVStore.Set
  cases hE : mget s.expirations key <;> simp [mget_mset]

/-- Effect of `Set` on expiration lookups: the key's entry is gone. -/
theorem Set_exps_mget (s : KVStore) (key value x : String) :
    mget (s.Set key value).expirations x =
      if x = key then none else mget s.expirations x := by
  unfold KVStore.Set
  cases hE : mget s.expirations key with
  | none =>
    simp only
    by_cases hx : x = key
    · rw [if_pos hx, hx, hE]
    · rw [if_neg hx]
  | some e =>
    simp only [mget_mdel]

/-- Both maps shrunk by `mdel` at the same key preserve the invariant. -/
theorem StoreInv_mdel_both (s : KVStore) (key : String) (h : StoreInv s) :
    StoreInv { data := mdel s.data key, expirations := mdel s.expirations key } := by
  intro k hk
  simp only [mget_mdel] at hk ⊢
  by_cases hkk : k = key
  · rw [if_pos hkk] at hk
    simp at hk
  · rw [if_neg hkk] at hk ⊢
    exact h k hk

/-- C6: every store operation — `Set`, `SetEx`, `Get`, `Delete`, `Rename`,
`RenameNX`, `Persist`, `Flush`, `Keys` and `cleanUp` — preserves the
invariant that a key carrying an expiration entry is also present in the
value mapping. -/
theorem C6_invariant_preserved (s : KVStore) (now ttl : Int)
    (key value oldKey newKey : String) (h : StoreInv s) :
    StoreInv (s.Set key value) ∧ StoreInv (s.SetEx now key value ttl) ∧
    StoreInv (s.Get now key).2 ∧ StoreInv (s.Delete key).2 ∧
    StoreInv (s.Rename oldKey newKey).2 ∧ StoreInv (s.RenameNX oldKey newKey).2 ∧
    StoreInv (s.Persist key).2 ∧ StoreInv s.Flush ∧
    StoreInv (s.Keys now).2 ∧ StoreInv (s.cleanUp now) := by
  have hclean : StoreInv (s.cleanUp now) := by
    intro k hk
    simp only [KVStore.cleanUp] at hk ⊢
    rw [mget_filterKey (fun x => !((mget s.data x).isSome && s.expired now x))] at hk
    rw [mget_filterKey (fun x => !(s.expired now x))]
    by_cases hb : ((mget s.data k).isSome && s.expired now k) = true
    · simp [hb] at hk
    · have hb' : ((mget s.data k).isSome && s.expired now k) = false := by
        simpa using hb
      simp only [hb', Bool.not_false, if_true] at hk
      have hdata := h k hk
      cases hE2 : s.expired now k with
      | false => simp [hE2, hdata]
      | true =>
        rw [hE2, hdata] at hb'
        simp at hb'
  have hSet : StoreInv (s.Set key value) := by
    intro k hk
    rw [Set_exps_mget] at hk
    rw [Set_data_mget]
    by_cases hkk : k = key
    · rw [if_pos hkk] at hk
      simp at hk
    · rw [if_neg hkk] at hk ⊢
      exact h k hk
  have hSetEx : StoreInv (s.SetEx now key value ttl) := by
    intro k hk
    simp only [KVStore.SetEx, mget_mset] at hk ⊢
    by_cases hkk : k = key
    · simp [hkk]
    · rw [if_neg hkk] at hk ⊢
      exact h k hk
  have hGet : StoreInv (s.Get now key).2 := by
    unfold KVStore.Get
    cases hD : mget s.data key with
    | none => exact h
    | some v =>
      by_cases hexp : s.expired now key
      · simp only [hexp, if_true]
        exact StoreInv_mdel_both s key h
      · simp only [hexp, if_false]
        exact h
  have hDelete : StoreInv (s.Delete key).2 := by
    unfold KVStore.Delete
    cases hD : mget s.data key with
    | none => exact h
    | some v => exact StoreInv_mdel_both s key h
  have hRename : StoreInv (s.Rename oldKey newKey).2 := by
    unfold KVStore.Rename
    cases hD : mget s.data oldKey with
    | none => exact h
    | some v =>
      cases hE : mget s.expirations oldKey with
      | some e =>
        intro k hk
        simp only [mget_mset, mget_mdel] at hk ⊢
        by_cases hkn : k = newKey
        · simp [hkn]
        · rw [if_neg hkn] at hk ⊢
          by_cases hko : k = oldKey
          · rw [if_pos hko] at hk
            simp at hk
          · rw [if_neg hko] at hk ⊢
            exact h k hk
      | none =>
        intro k hk
        simp only [mget_mset, mget_mdel] at hk ⊢
        by_cases hkn : k = newKey
        · simp [hkn]
        · rw [if_neg hkn]
          by_cases hko : k = oldKey
          · rw [hko] at hk
            rw [hE] at hk
            simp at hk
          · rw [if_neg hko]
            exact h k hk
  have hRenameNX : StoreInv (s.RenameNX oldKey newKey).2 := by
    unfold KVStore.RenameNX
    cases hD : mget s.data oldKey with
    | none => exact h
    | some v =>
      cases hN : mget s.data newKey with
      | some w => exact h
      | none =>
        cases hE : mget s.expirations oldKey with
        | some e =>
          intro k hk
          simp only [mget_mset, mget_mdel] at hk ⊢
          by_cases hkn : k = newKey
          · simp [hkn]
          · rw [if_neg hkn] at hk ⊢
            by_cases hko : k = oldKey
            · rw [if_pos hko] at hk
              simp at hk
            · rw [if_neg hko] at hk ⊢
              exact h k hk
        | none =>
          intro k hk
          simp only [mget_mset, mget_mdel] at hk ⊢
          by_cases hkn : k = newKey
          · simp [hkn]
          · rw [if_neg hkn]
            by_cases hko : k = oldKey
            · rw [hko] at hk
              rw [hE] at hk
              simp at hk
            · rw [if_neg hko]
              exact h k hk
  have hPersist : StoreInv (s.Persist key).2 := by
    unfold KVStore.Persist
    cases hD : mget s.data key with
    | none => exact h
    | some v =>
      cases hE : mget s.expirations key with
      | none => exact h
      | some e =>
        intro k hk
        simp only [mget_mdel] at hk
        by_cases hkk : k = key
        · rw [if_pos hkk] at hk
          simp at hk
        · rw [if_neg hkk] at hk
          exact h k hk
  have hFlush : StoreInv s.Flush := by
    intro k hk
    simp [KVStore.Flush, mget] at hk
  exact ⟨hSet, hSetEx, hGet, hDelete, hRename, hRenameNX, hPersist, hFlush, hclean, hclean⟩

/-- C6 witness: the invariant holds on the empty store and is carried
through a `Set`. -/
theorem C6_witness : StoreInv (KVStore.New.Set "a" "1") :=
  (C6_invariant_preserved KVStore.New 0 0 "a" "1" "a" "b"
    (fun k hk => by simp [KVStore.New, mget] at hk)).1

/-- C7: `Delete` on an absent key reports `KeyNotFound` (false) and
returns the state literally unchanged (hence unchanged size); on a present
key it succeeds and removes the key from the value mapping and the
expiration mapping together, leaving every other key untouched. -/
theorem C7_delete_spec (s : KVStore) (key : String) :
    (mget s.data key = none → s.Delete key = (false, s)) ∧
    ((mget s.data key).isSome →
      (s.Delete key).1 = true ∧
      mget (s.Delete key).2.data key = none ∧
      mget (s.Delete key).2.expirations key = none ∧
      (∀ x, x ≠ key → mget (s.Delete key).2.data x = mget s.data x ∧
        mget (s.Delete key).2.expirations x = mget s.expirations x)) := by
  constructor
  · intro hD
    simp [KVStore.Delete, hD]
  · intro h1
    rcases Option.isSome_iff_exists.mp h1 with ⟨v, hv⟩
    refine ⟨?_, ?_, ?_, ?_⟩
    · simp [KVStore.Delete, hv]
    · simp [KVStore.Delete, hv, mget_mdel]
    · simp [KVStore.Delete, hv, mget_mdel]
    · intro x hx
      simp [KVStore.Delete, hv, mget_mdel, hx]

/-- C7 witness: deleting the present key "k" succeeds and clears both
entries; deleting it again then fails with the state unchanged. -/
theorem C7_witness :
    (storeKV10.Delete "k").1 = true ∧
      mget (storeKV10.Delete "k").2.data "k" = none ∧
      mget (storeKV10.Delete "k").2.expirations "k" = none := by
  have h := (C7_delete_spec storeKV10 "k").2 (by decide)
  exact ⟨h.1, h.2.1, h.2.2.1⟩

/-- C8: `Persist` never touches the value mapping (the `data` field is
preserved verbatim by both of two consecutive calls); the first call
returns 1 exactly when the key is present and carries an expiration,
removing that expiration (and nothing else); and the second consecutive
call always returns 0. -/
theorem C8_persist_idempotent (s : KVStore) (key : String) :
    (s.Persist key).2.data = s.data ∧
    ((s.Persist key).2.Persist key).2.data = s.data ∧
    ((s.Persist key).1 = 1 ↔ (mget s.data key).isSome ∧ (mget s.expirations key).isSome) ∧
    ((s.Persist key).1 = 1 → mget (s.Persist key).2.expirations key = none ∧
      (∀ x, x ≠ key →
        mget (s.Persist key).2.expirations x = mget s.expirations x)) ∧
    ((s.Persist key).2.Persist key).1 = 0 := by
  cases hD : mget s.data key with
  | none =>
    refine ⟨?_, ?_, ?_, ?_, ?_⟩ <;> simp [KVStore.Persist, hD]
  | some v =>
    cases hE : mget s.expirations key with
    | none =>
      refine ⟨?_, ?_, ?_, ?_, ?_⟩ <;> simp [KVStore.Persist, hD, hE]
    | some e =>
      refine ⟨?_, ?_, ?_, ?_, ?_⟩
      · simp [KVStore.Persist, hD, hE]
      · simp [KVStore.Persist, hD, hE, mget_mdel]
      · simp [KVStore.Persist, hD, hE]
      · intro _
        constructor
        · simp [KVStore.Persist, hD, hE, mget_mdel]
        · intro x hx
          simp [KVStore.Persist, hD, hE, mget_mdel, hx]
      · simp [KVStore.Persist, hD, hE, mget_mdel]

/-- C8 witness: on a store where "k" expires at 10, the first `Persist`
returns 1 and the second returns 0. -/
theorem C8_witness :
    (storeKV10.Persist "k").1 = 1 ∧ ((storeKV10.Persist "k").2.Persist "k").1 = 0 :=
  ⟨(C8_persist_idempotent storeKV10 "k").2.2.1.mpr (by decide),
   (C8_persist_idempotent storeKV10 "k").2.2.2.2⟩

/-- C9: evaluation of the dispatcher at the failing input.  `TYPE k` on a
store where "k" is present succeeds with the reply "string", yet the whole
dispatch state — including every per-command counter — is returned
unchanged: the `metrics.Inc("TYPE")` line in `handleType` sits after the
early `return "string"`, so the successful present-key path increments
nothing, and the TYPE counter stays 0. -/
theorem C9_type_counter_bug :
    processCommand dispatchEnv dispatchSt ["TYPE", "k"] = ("string", dispatchSt) ∧
    (processCommand dispatchEnv dispatchSt ["TYPE", "k"]).2.metrics.Get "TYPE" = 0 := by
  decide

/-- C10: renaming a present key to itself returns success (1) and leaves
both mappings observationally exactly as before. -/
theorem C10_rename_self (s : KVStore) (k v : String) (hv : mget s.data k = some v) :
    (s.Rename k k).1 = 1 ∧
    (∀ x, mget (s.Rename k k).2.data x = mget s.data x) ∧
    (∀ x, mget (s.Rename k k).2.expirations x = mget s.expirations x) := by
  cases hE : mget s.expirations k with
  | none =>
    refine ⟨?_, ?_, ?_⟩
    · simp [KVStore.Rename, hv, hE]
    · intro x
      simp only [KVStore.Rename, hv, hE, mget_mset, mget_mdel]
      by_cases hx : x = k
      · rw [if_pos hx, hx, hv]
      · rw [if_neg hx, if_neg hx]
    · intro x
      simp [KVStore.Rename, hv, hE]
  | some e =>
    refine ⟨?_, ?_, ?_⟩
    · simp [KVStore.Rename, hv, hE]
    · intro x
      simp only [KVStore.Rename, hv, hE, mget_mset, mget_mdel]
      by_cases hx : x = k
      · rw [if_pos hx, hx, hv]
      · rw [if_neg hx, if_neg hx]
    · intro x
      simp only [KVStore.Rename, hv, hE, mget_mset, mget_mdel]
      by_cases hx : x = k
      · rw [if_pos hx, hx, hE]
      · rw [if_neg hx, if_neg hx]

/-- C10 witness: `Rename k k` on a store holding "k" succeeds and the
lookups of "k" in both maps are unchanged. -/
theorem C10_witness :
    (storeKV10.Rename "k" "k").1 = 1 ∧
      mget (storeKV10.Rename "k" "k").2.data "k" = mget storeKV10.data "k" ∧
      mget (storeKV10.Rename "k" "k").2.expirations "k" =
        mget storeKV10.expirations "k" := by
  have h := C10_rename_self storeKV10 "k" "v" (by decide)
  exact ⟨h.1, h.2.1 "k", h.2.2 "k"⟩
